import Mathlib

/-!
Verification of `deploy_heroku.py` (the Heroku deploy GitHub action).

The Python module is shallowly embedded: each Python function becomes a Lean
function of the same name; the HTTP/process boundary is represented by an
environment (`Env`) of response status codes and parsed JSON bodies, and
`main` returns the list of outbound effects it performed together with its
result.  Python exceptions become `Except` errors:

  * `AssertionError` on the required-inputs check  ↦ `RunErr.preconditionError`
  * `AssertionError` on an HTTP status code        ↦ `PyErr.apiError`
  * `KeyError` / `TypeError` / `IndexError`        ↦ the same-named `PyErr`s
  * `json.JSONDecodeError`                         ↦ `PyErr.jsonDecodeError`
  * `TimeoutError` in `wait_for_release`           ↦ `PyErr.timeoutError`
  * `subprocess.CalledProcessError`                ↦ `PyErr.externalCommandError`
  * the final `RuntimeError`                       ↦ `RunErr.deploymentFailed`
-/

namespace DeployHeroku

/-- JSON values, as produced by `json.loads`.  Objects keep their fields in
source order; lookups take the last binding, matching Python dict semantics
for duplicate keys. -/
inductive JsonValue where
  | null
  | bool (b : Bool)
  | num (n : Int)
  | str (s : String)
  | arr (elems : List JsonValue)
  | obj (fields : List (String × JsonValue))

/-- Whitespace characters JSON allows between tokens. -/
def isJsonWs (c : Char) : Bool :=
  c == ' ' || c == '\n' || c == '\t' || c == '\r'

def skipWs (cs : List Char) : List Char := cs.dropWhile isJsonWs

/-- Parse the body of a JSON string literal (the opening quote is already
consumed), returning the decoded string and the remaining input. -/
def parseStringBody : List Char → Option (String × List Char)
  | [] => none
  | '"' :: rest => some ("", rest)
  | '\\' :: rest =>
    match rest with
    | [] => none
    | e :: rest' =>
      let c? : Option Char :=
        match e with
        | '"' => some '"'
        | '\\' => some '\\'
        | '/' => some '/'
        | 'n' => some '\n'
        | 't' => some '\t'
        | 'r' => some '\r'
        | 'b' => some (Char.ofNat 8)
        | 'f' => some (Char.ofNat 12)
        | _ => none
      match c? with
      | none => none
      | some c =>
        match parseStringBody rest' with
        | none => none
        | some (s, rem) => some (⟨c :: s.data⟩, rem)
  | c :: rest =>
    match parseStringBody rest with
    | none => none
    | some (s, rem) => some (⟨c :: s.data⟩, rem)

def digitsToNat (ds : List Char) : Nat :=
  ds.foldl (fun n c => n * 10 + (c.toNat - 48)) 0

mutual

/-- Recursive-descent JSON parser (model of `json.loads` for the JSON subset
this program exchanges: numbers are integers, `\uXXXX` escapes unused).
`fuel` bounds the recursion depth; every recursive call consumes at least one
input character first, so `length + 1` fuel always suffices. -/
def parseValue : Nat → List Char → Option (JsonValue × List Char)
  | 0, _ => none
  | fuel + 1, cs =>
    match skipWs cs with
    | 'n' :: 'u' :: 'l' :: 'l' :: rest => some (.null, rest)
    | 't' :: 'r' :: 'u' :: 'e' :: rest => some (.bool true, rest)
    | 'f' :: 'a' :: 'l' :: 's' :: 'e' :: rest => some (.bool false, rest)
    | '"' :: rest =>
      match parseStringBody rest with
      | none => none
      | some (s, rem) => some (.str s, rem)
    | '[' :: rest =>
      match skipWs rest with
      | ']' :: rem => some (.arr [], rem)
      | _ =>
        match parseElems fuel rest with
        | none => none
        | some (xs, rem) => some (.arr xs, rem)
    | '\x7b' :: rest =>
      match skipWs rest with
      | '\x7d' :: rem => some (.obj [], rem)
      | _ =>
        match parseMembers fuel rest with
        | none => none
        | some (fs, rem) => some (.obj fs, rem)
    | '-' :: rest =>
      let ds := rest.takeWhile Char.isDigit
      if ds.isEmpty then none
      else some (.num (-(digitsToNat ds : Int)), rest.drop ds.length)
    | c :: rest =>
      if c.isDigit then
        let ds := (c :: rest).takeWhile Char.isDigit
        some (.num (digitsToNat ds : Int), (c :: rest).drop ds.length)
      else none
    | [] => none

/-- One or more comma-separated array elements, then the closing bracket. -/
def parseElems : Nat → List Char → Option (List JsonValue × List Char)
  | 0, _ => none
  | fuel + 1, cs =>
    match parseValue fuel cs with
    | none => none
    | some (v, rest) =>
      match skipWs rest with
      | ',' :: rest' =>
        match parseElems fuel rest' with
        | none => none
        | some (xs, rem) => some (v :: xs, rem)
      | ']' :: rem => some ([v], rem)
      | _ => none

/-- One or more comma-separated `"key": value` members, then the closing
brace. -/
def parseMembers : Nat → List Char → Option (List (String × JsonValue) × List Char)
  | 0, _ => none
  | fuel + 1, cs =>
    match skipWs cs with
    | '"' :: rest =>
      match parseStringBody rest with
      | none => none
      | some (key, rest') =>
        match skipWs rest' with
        | ':' :: rest'' =>
          match parseValue fuel rest'' with
          | none => none
          | some (v, rest''') =>
            match skipWs rest''' with
            | ',' :: more =>
              match parseMembers fuel more with
              | none => none
              | some (fs, rem) => some ((key, v) :: fs, rem)
            | '\x7d' :: rem => some ([(key, v)], rem)
            | _ => none
        | _ => none
    | _ => none

end

/-- Errors a library call or helper can raise (see the module docstring for
the exception mapping). -/
inductive PyErr where
  | fileNotFound
  | jsonDecodeError
  | keyError (key : String)
  | typeError
  | indexError
  | apiError (status : Nat)
  | timeoutError
  | zeroDivisionError
  | externalCommandError
  | fuelExhausted
deriving DecidableEq, Repr

/-- Model of `json.loads`: parse the whole input, allowing only trailing
whitespace. An undecodable input (for example the empty string) raises
`json.JSONDecodeError`. -/
def json_loads (s : String) : Except PyErr JsonValue :=
  match parseValue (s.length + 1) s.data with
  | some (v, rest) => if skipWs rest = [] then .ok v else .error .jsonDecodeError
  | none => .error .jsonDecodeError

/-- Python dict lookup for JSON objects: the last binding of a duplicated key
wins, as in `dict` construction from `json.loads`. -/
def lookupLast (fields : List (String × JsonValue)) (k : String) : Option JsonValue :=
  (fields.filter (fun p => p.1 == k)).getLast?.map (fun p => p.2)

/-- Python subscript `v[k]` with a string key: a dict lookup (`KeyError` when
the key is missing), a `TypeError` on anything that is not a dict. -/
def pyGetItem (v : JsonValue) (k : String) : Except PyErr JsonValue :=
  match v with
  | .obj fields =>
    match lookupLast fields k with
    | some x => .ok x
    | none => .error (.keyError k)
  | _ => .error .typeError

/-- Python `==` between a JSON-derived value and a string: true exactly when
the value is that string. -/
def jsonEqStr (v : JsonValue) (s : String) : Bool :=
  match v with
  | .str t => t == s
  | _ => false

/-- Substring test, modelling Python `needle in haystack` for strings. -/
def strContainsSub (haystack needle : String) : Bool :=
  (List.range (haystack.data.length + 1)).any
    (fun i => needle.data.isPrefixOf (haystack.data.drop i))

/-- Python `k in v`: key membership for dicts, substring for strings, element
equality for lists, `TypeError` otherwise. -/
def pyContains (v : JsonValue) (k : String) : Except PyErr Bool :=
  match v with
  | .obj fields => .ok (fields.any (fun p => p.1 == k))
  | .str s => .ok (strContainsSub s k)
  | .arr xs => .ok (xs.any (fun x => jsonEqStr x k))
  | _ => .error .typeError

/-- Python subscript `v[0]`: first element of a list (`IndexError` when
empty), `TypeError` on a non-list. -/
def pyFirst (v : JsonValue) : Except PyErr JsonValue :=
  match v with
  | .arr (x :: _) => .ok x
  | .arr [] => .error .indexError
  | _ => .error .typeError

/-- `DeploymentType` constants from the source. -/
def DeploymentType.FORWARD : String := "forward"

def DeploymentType.ROLLBACK : String := "rollback"

def DeploymentType.REDEPLOY : String := "redeploy"

/-- `HerokuStatus` constants from the source. -/
def HerokuStatus.PENDING : String := "pending"

def HerokuStatus.FAILED : String := "failed"

def HerokuStatus.SUCCEEDED : String := "succeeded"

/-- `HTTPMethod` constants from the source. -/
def HTTPMethod.GET : String := "GET"

def HTTPMethod.POST : String := "POST"

def HTTPMethod.PUT : String := "PUT"

/-- The `HerokuRelease` dataclass.  Fields carry their annotated types;
`release_from_response` checks the response supplies them at those types. -/
structure HerokuRelease where
  id : String
  version : Int
  status : String
  description : String
  slug_id : String
deriving DecidableEq, Repr

def asStr (v : JsonValue) : Except PyErr String :=
  match v with
  | .str s => .ok s
  | _ => .error .typeError

def asInt (v : JsonValue) : Except PyErr Int :=
  match v with
  | .num n => .ok n
  | _ => .error .typeError

/-- `release_from_response`: build a `HerokuRelease` from a raw response
object, taking `id`, `version`, `status` and `description` directly (in
dataclass-field order) and `slug_id` from the nested `slug` object's `id`. -/
def release_from_response (data : JsonValue) : Except PyErr HerokuRelease := do
  let idv ← pyGetItem data "id" >>= asStr
  let ver ← pyGetItem data "version" >>= asInt
  let st ← pyGetItem data "status" >>= asStr
  let desc ← pyGetItem data "description" >>= asStr
  let slug ← pyGetItem data "slug"
  let sid ← pyGetItem slug "id" >>= asStr
  pure ⟨idv, ver, st, desc, sid⟩

/-- `get_status_codes`: the dict lookup of expected success codes per HTTP
method (`KeyError` for any other method, e.g. `PUT`). -/
def get_status_codes (method : String) : Except PyErr (List Nat) :=
  if method = HTTPMethod.GET then .ok [200, 206]
  else if method = HTTPMethod.POST then .ok [201]
  else .error (.keyError method)

/-- `get_response`, at the point after the HTTP exchange: the request method
is `POST` when a payload was attached and `GET` otherwise (urllib's
`Request.get_method`), and the response status must be one of the expected
codes for that method — otherwise the `assert` raises (the spec's
`ApiError`).  `status` and `body` stand for the received response. -/
def get_response (hasPayload : Bool) (status : Nat) (body : JsonValue) :
    Except PyErr JsonValue := do
  let method := if hasPayload then HTTPMethod.POST else HTTPMethod.GET
  let codes ← get_status_codes method
  if status ∈ codes then pure body else .error (.apiError status)

/-- `get_latest_heroku_release`: take element `[0]` of the releases listing
and parse it. -/
def get_latest_heroku_release (status : Nat) (body : JsonValue) :
    Except PyErr HerokuRelease := do
  let b ← get_response false status body
  let first ← pyFirst b
  release_from_response first

/-- The slug lookup inside `main`: fetch the slug resource and subscript its
`commit` key. -/
def fetch_slug_commit (status : Nat) (body : JsonValue) : Except PyErr JsonValue := do
  let b ← get_response false status body
  pyGetItem b "commit"

/-- The description `trigger_release_retry` builds:
`f"Retry of v{release.version}: {release.description}"`. -/
def retryDescription (release : HerokuRelease) : String :=
  "Retry of v" ++ toString release.version ++ ": " ++ release.description

/-- The payload `trigger_release_retry` posts:
`{"slug": release.slug_id, "description": ...}`. -/
def retryPayload (release : HerokuRelease) : JsonValue :=
  .obj [("slug", .str release.slug_id), ("description", .str (retryDescription release))]

/-- `trigger_release_retry`, at the point after the POST: parse the created
release from the response (status must be 201, the POST success code). -/
def release_retry_result (status : Nat) (body : JsonValue) :
    Except PyErr HerokuRelease := do
  let b ← get_response true status body
  release_from_response b

/-- One poll of `wait_for_release`: fetch `releases/{version}` and parse it.
`pollStatus`/`pollBody` give the response to the `k`-th poll. -/
def poll_release (pollStatus : Nat → Nat) (pollBody : Nat → JsonValue) (k : Nat) :
    Except PyErr HerokuRelease := do
  let b ← get_response false (pollStatus k) (pollBody k)
  release_from_response b

/-- Outcome of the `wait_for_release` loop, recording how many polls were
made.  `outOfFuel` marks exhaustion of the recursion bound and is proved
unreachable for positive `wait_time`. -/
inductive WaitOutcome where
  | finished (polls : Nat)
  | timedOut (polls : Nat)
  | failed (polls : Nat) (e : PyErr)
  | outOfFuel
deriving DecidableEq, Repr

/-- The `while count < timeout / wait_time` loop of `wait_for_release`.
Python's float comparison `count < timeout / wait_time` is modelled by the
exact integer comparison `count * wait_time < timeout` (equivalent for
positive `wait_time`). -/
def waitGo (pollStatus : Nat → Nat) (pollBody : Nat → JsonValue)
    (timeout wait_time : Nat) : Nat → Nat → WaitOutcome
  | 0, count =>
    if count * wait_time < timeout then .outOfFuel else .timedOut count
  | fuel + 1, count =>
    if count * wait_time < timeout then
      match poll_release pollStatus pollBody count with
      | .error e => .failed (count + 1) e
      | .ok release =>
        if release.status ≠ HerokuStatus.PENDING then .finished (count + 1)
        else waitGo pollStatus pollBody timeout wait_time fuel (count + 1)
    else .timedOut count

/-- `wait_for_release`.  With `wait_time = 0` Python's `timeout / wait_time`
raises `ZeroDivisionError` before the first poll; otherwise the loop runs
with `timeout + 1` fuel, which always suffices. -/
def wait_for_release (pollStatus : Nat → Nat) (pollBody : Nat → JsonValue)
    (timeout wait_time : Nat) : WaitOutcome :=
  if wait_time = 0 then .failed 0 .zeroDivisionError
  else waitGo pollStatus pollBody timeout wait_time (timeout + 1) 0

/-- Python `str.strip()` on the command string. -/
def pyStrip (s : String) : String :=
  String.mk (((s.data.dropWhile Char.isWhitespace).reverse.dropWhile
    Char.isWhitespace).reverse)

/-- `deploy_heroku_command`: the `git push` command line, with `--force`
appended exactly when `rollback` is set, and the trailing space of the
f-string stripped. -/
def deploy_heroku_command (commit_hash api_key app : String) (rollback : Bool) :
    String :=
  let git_url := "https://heroku:" ++ api_key ++ "@git.heroku.com/" ++ app ++ ".git"
  pyStrip ("git push " ++ git_url ++ " " ++ commit_hash ++ ":refs/heads/master "
    ++ (if rollback then "--force" else ""))

/-- The intent extraction of `get_deployment_type` once the payload object is
at hand (after the optional second decode): `payload["ghd"]["type"]` when the
payload contains the key `ghd`, else `payload["deployment_type"]`. -/
def intent_from_payload_obj (payload : JsonValue) : Except PyErr JsonValue := do
  let hasGhd ← pyContains payload "ghd"
  if hasGhd then do
    let ghd ← pyGetItem payload "ghd"
    pyGetItem ghd "type"
  else pyGetItem payload "deployment_type"

/-- The payload normalisation of `get_deployment_type`: a payload that is a
string is decoded a second time with `json.loads` before intent extraction. -/
def extract_intent (payload : JsonValue) : Except PyErr JsonValue :=
  match payload with
  | .str s => json_loads s >>= intent_from_payload_obj
  | v => intent_from_payload_obj v

/-- `get_deployment_type`: read and decode the event file (`none` models a
missing file), take `["deployment"]["payload"]`, and extract the intent. -/
def get_deployment_type (event : Option String) : Except PyErr JsonValue := do
  let content ← match event with
    | none => Except.error PyErr.fileNotFound
    | some s => Except.ok s
  let doc ← json_loads content
  let dep ← pyGetItem doc "deployment"
  let payload ← pyGetItem dep "payload"
  extract_intent payload

/-- Errors the whole run can end with: the required-inputs `assert`, a
propagated library/API error, or the final `RuntimeError` (the spec's
`DeploymentFailed`). -/
inductive RunErr where
  | preconditionError
  | stage (e : PyErr)
  | deploymentFailed
deriving DecidableEq, Repr

/-- The three actions `main` can take (lines 134–140 of the source). -/
inductive DeployAction where
  | retryRelease
  | rollbackPush
  | forwardPush
deriving DecidableEq, Repr

/-- The decision of `main`'s `if`/`elif`/`else` chain: retry when the slug's
commit equals the target commit and the intent is `redeploy`; otherwise a
forced push on intent `rollback`; otherwise a normal push. -/
def choose_action (slug_commit : JsonValue) (git_commit_hash : String)
    (deployment_type : JsonValue) : DeployAction :=
  if jsonEqStr slug_commit git_commit_hash
      && jsonEqStr deployment_type DeploymentType.REDEPLOY then .retryRelease
  else if jsonEqStr deployment_type DeploymentType.ROLLBACK then .rollbackPush
  else .forwardPush

/-- Outbound effects of a run: the four HTTP requests and the `git push`
subprocess. -/
inductive Effect where
  | httpGetReleases
  | httpGetSlug (slug_id : String)
  | httpPostRelease (payload : JsonValue)
  | httpGetRelease (version : Int)
  | runCmd (cmd : String)

/-- Responses of the outside world for one run: a status code and parsed
body per HTTP call (polls indexed by attempt), and the push exit status. -/
structure Env where
  releasesStatus : Nat
  releasesBody : JsonValue
  slugStatus : Nat
  slugBody : JsonValue
  retryStatus : Nat
  retryBody : JsonValue
  pollStatus : Nat → Nat
  pollBody : Nat → JsonValue
  pushExitZero : Bool
  finalStatus : Nat
  finalBody : JsonValue

/-- The body of `main`'s branch: retry-and-wait, or a (possibly forced)
`git push` via `do_deploy`, returning the effects performed and whether the
action completed. -/
def run_action (heroku_app heroku_api_key git_commit_hash : String) (env : Env)
    (latest_release : HerokuRelease) :
    DeployAction → List Effect × Except PyErr Unit
  | .retryRelease =>
    let postEff := Effect.httpPostRelease (retryPayload latest_release)
    match release_retry_result env.retryStatus env.retryBody with
    | .error e => ([postEff], .error e)
    | .ok newRelease =>
      match wait_for_release env.pollStatus env.pollBody 300 3 with
      | .finished n =>
        (postEff :: List.replicate n (.httpGetRelease newRelease.version), .ok ())
      | .timedOut n =>
        (postEff :: List.replicate n (.httpGetRelease newRelease.version),
         .error .timeoutError)
      | .failed n e =>
        (postEff :: List.replicate n (.httpGetRelease newRelease.version), .error e)
      | .outOfFuel => ([postEff], .error .fuelExhausted)
  | .rollbackPush =>
    ([.runCmd (deploy_heroku_command git_commit_hash heroku_api_key heroku_app true)],
     if env.pushExitZero then .ok () else .error .externalCommandError)
  | .forwardPush =>
    ([.runCmd (deploy_heroku_command git_commit_hash heroku_api_key heroku_app false)],
     if env.pushExitZero then .ok () else .error .externalCommandError)

/-- The tail of `main` after the dispatched action: propagate an action
error, otherwise re-fetch the latest release and check its status, raising
`RuntimeError` (the spec's `DeploymentFailed`) unless it is `succeeded`, in
which case the release version is the run's output. -/
def finish_run (pre actEffs : List Effect) (actRes : Except PyErr Unit) (env : Env) :
    List Effect × Except RunErr Int :=
  match actRes with
  | .error e => (pre ++ actEffs, .error (.stage e))
  | .ok _ =>
    match get_latest_heroku_release env.finalStatus env.finalBody with
    | .error e => (pre ++ actEffs ++ [.httpGetReleases], .error (.stage e))
    | .ok final_release =>
      (pre ++ actEffs ++ [.httpGetReleases],
       if final_release.status ≠ HerokuStatus.SUCCEEDED then
         .error .deploymentFailed
       else .ok final_release.version)

/-- `main`: the required-inputs `assert` (an empty string is falsy), intent
classification, state fetch, dispatch, and the final status check that emits
the release version on success. -/
def main (heroku_app heroku_api_key git_commit_hash : String)
    (event : Option String) (env : Env) : List Effect × Except RunErr Int :=
  if heroku_app = "" ∨ heroku_api_key = "" ∨ git_commit_hash = "" then
    ([], .error .preconditionError)
  else
    match get_deployment_type event with
    | .error e => ([], .error (.stage e))
    | .ok deployment_type =>
      match get_latest_heroku_release env.releasesStatus env.releasesBody with
      | .error e => ([.httpGetReleases], .error (.stage e))
      | .ok latest_release =>
        match fetch_slug_commit env.slugStatus env.slugBody with
        | .error e =>
          ([.httpGetReleases, .httpGetSlug latest_release.slug_id], .error (.stage e))
        | .ok slug_commit =>
          match run_action heroku_app heroku_api_key git_commit_hash env latest_release
              (choose_action slug_commit git_commit_hash deployment_type) with
          | (actEffs, actRes) =>
            finish_run [.httpGetReleases, .httpGetSlug latest_release.slug_id]
              actEffs actRes env

/-! ## Helper lemmas -/

theorem string_eq_of_data {s t : String} (h : s.data = t.data) : s = t :=
  congrArg String.mk h

theorem data_append (s t : String) : (s ++ t).data = s.data ++ t.data := rfl

theorem jsonEqStr_eq_true {v : JsonValue} {s : String} :
    jsonEqStr v s = true ↔ v = .str s := by
  cases v <;> simp [jsonEqStr]

theorem choose_action_retry {sc : JsonValue} {c : String} {dt : JsonValue}
    (h1 : sc = .str c) (h2 : dt = .str DeploymentType.REDEPLOY) :
    choose_action sc c dt = .retryRelease := by
  subst h1
  subst h2
  unfold choose_action
  rw [if_pos]
  simp [jsonEqStr]

theorem choose_action_rollback {sc : JsonValue} {c : String} {dt : JsonValue}
    (h2 : dt = .str DeploymentType.ROLLBACK) :
    choose_action sc c dt = .rollbackPush := by
  subst h2
  unfold choose_action
  rw [if_neg, if_pos]
  · simp [jsonEqStr]
  · simp [jsonEqStr, DeploymentType.ROLLBACK, DeploymentType.REDEPLOY]

theorem choose_action_forward {sc : JsonValue} {c : String} {dt : JsonValue}
    (hn : ¬(sc = .str c ∧ dt = .str DeploymentType.REDEPLOY))
    (h2 : dt ≠ .str DeploymentType.ROLLBACK) :
    choose_action sc c dt = .forwardPush := by
  have hb1 : (jsonEqStr sc c && jsonEqStr dt DeploymentType.REDEPLOY) ≠ true := by
    intro h
    rw [Bool.and_eq_true, jsonEqStr_eq_true, jsonEqStr_eq_true] at h
    exact hn ⟨h.1, h.2⟩
  have hb2 : jsonEqStr dt DeploymentType.ROLLBACK ≠ true := by
    intro h
    exact h2 (jsonEqStr_eq_true.mp h)
  simp [choose_action, hb1, hb2]

theorem finish_run_trace (pre actEffs : List Effect) (actRes : Except PyErr Unit)
    (env : Env) :
    ∃ tail, (finish_run pre actEffs actRes env).1 = pre ++ actEffs ++ tail ∧
      ∀ x ∈ tail, x = Effect.httpGetReleases := by
  cases actRes with
  | error e => exact ⟨[], by simp [finish_run], by simp⟩
  | ok u =>
    cases hf : get_latest_heroku_release env.finalStatus env.finalBody with
    | error e => exact ⟨[.httpGetReleases], by simp [finish_run, hf], by simp⟩
    | ok r => exact ⟨[.httpGetReleases], by simp [finish_run, hf], by simp⟩

theorem ceil_div_le_iff (t w n : Nat) (hw : 0 < w) :
    (t + w - 1) / w ≤ n ↔ t ≤ n * w := by
  rw [Nat.div_le_iff_le_mul_add_pred hw, Nat.mul_comm n w]
  generalize w * n = K
  omega

theorem lt_ceil_div_iff (t w n : Nat) (hw : 0 < w) :
    n < (t + w - 1) / w ↔ n * w < t := by
  rw [← Nat.not_le, ← Nat.not_le, ceil_div_le_iff t w n hw]

theorem ceil_div_le_self (t w : Nat) (hw : 0 < w) : (t + w - 1) / w ≤ t :=
  (ceil_div_le_iff t w t hw).mpr (Nat.le_mul_of_pos_right t hw)

theorem waitGo_all_pending (pS : Nat → Nat) (pB : Nat → JsonValue) (t w : Nat)
    (hw : 0 < w)
    (hpend : ∀ k, ∃ r, poll_release pS pB k = .ok r ∧
      r.status = HerokuStatus.PENDING) :
    ∀ fuel count, count ≤ (t + w - 1) / w → t + 1 ≤ fuel + count →
      waitGo pS pB t w fuel count = .timedOut ((t + w - 1) / w) := by
  intro fuel
  induction fuel with
  | zero =>
    intro count hle hfuel
    have hN := ceil_div_le_self t w hw
    omega
  | succ fuel ih =>
    intro count hle hfuel
    by_cases hcond : count * w < t
    · obtain ⟨r, hr, hst⟩ := hpend count
      have hlt : count < (t + w - 1) / w := (lt_ceil_div_iff t w count hw).mpr hcond
      rw [waitGo, if_pos hcond, hr]
      simp only [hst, HerokuStatus.PENDING, ne_eq, not_true_eq_false, if_false]
      exact ih (count + 1) hlt (by omega)
    · have hge : (t + w - 1) / w ≤ count :=
        (ceil_div_le_iff t w count hw).mpr (Nat.le_of_not_lt hcond)
      rw [waitGo, if_neg hcond, Nat.le_antisymm hle hge]

theorem waitGo_first_non_pending (pS : Nat → Nat) (pB : Nat → JsonValue)
    (t w : Nat) (hw : 0 < w) (j : Nat) (r : HerokuRelease)
    (hj : j * w < t) (hr : poll_release pS pB j = .ok r)
    (hst : r.status ≠ HerokuStatus.PENDING)
    (hbefore : ∀ k, k < j → ∃ r', poll_release pS pB k = .ok r' ∧
      r'.status = HerokuStatus.PENDING) :
    ∀ fuel count, count ≤ j → t + 1 ≤ fuel + count →
      waitGo pS pB t w fuel count = .finished (j + 1) := by
  intro fuel
  induction fuel with
  | zero =>
    intro count hle hfuel
    have : j ≤ j * w := Nat.le_mul_of_pos_right j hw
    omega
  | succ fuel ih =>
    intro count hle hfuel
    have hcond : count * w < t :=
      Nat.lt_of_le_of_lt (Nat.mul_le_mul_right w hle) hj
    rcases Nat.lt_or_ge count j with hlt | hge
    · obtain ⟨r', hr', hst'⟩ := hbefore count hlt
      rw [waitGo, if_pos hcond, hr']
      simp only [hst', HerokuStatus.PENDING, ne_eq, not_true_eq_false, if_false]
      exact ih (count + 1) hlt (by omega)
    · have hcj : count = j := Nat.le_antisymm hle hge
      subst hcj
      rw [waitGo, if_pos hcond, hr]
      dsimp only
      rw [if_pos hst]

theorem waitGo_polls_lower_bound (pS : Nat → Nat) (pB : Nat → JsonValue)
    (t w : Nat) :
    ∀ fuel count,
      (∀ n, waitGo pS pB t w fuel count = .finished n → count + 1 ≤ n) ∧
      (∀ n, waitGo pS pB t w fuel count = .timedOut n → count ≤ n) ∧
      (∀ n e, waitGo pS pB t w fuel count = .failed n e → count + 1 ≤ n) := by
  intro fuel
  induction fuel with
  | zero =>
    intro count
    refine ⟨?_, ?_, ?_⟩ <;> intro n
    · intro h
      rw [waitGo] at h
      split at h <;> simp_all
    · intro h
      rw [waitGo] at h
      split at h <;> simp_all
    · intro e h
      rw [waitGo] at h
      split at h <;> simp_all
  | succ fuel ih =>
    intro count
    refine ⟨?_, ?_, ?_⟩ <;> intro n
    · intro h
      rw [waitGo] at h
      split at h
      · cases hp : poll_release pS pB count with
        | error e => rw [hp] at h; dsimp only at h; simp at h
        | ok r =>
          rw [hp] at h
          dsimp only at h
          by_cases hs : r.status ≠ HerokuStatus.PENDING
          · rw [if_pos hs] at h
            cases h
            omega
          · rw [if_neg hs] at h
            have := ((ih (count + 1)).1) n h
            omega
      · cases h
    · intro h
      rw [waitGo] at h
      split at h
      · cases hp : poll_release pS pB count with
        | error e => rw [hp] at h; dsimp only at h; simp at h
        | ok r =>
          rw [hp] at h
          dsimp only at h
          by_cases hs : r.status ≠ HerokuStatus.PENDING
          · rw [if_pos hs] at h
            cases h
          · rw [if_neg hs] at h
            have := ((ih (count + 1)).2.1) n h
            omega
      · cases h
        omega
    · intro e h
      rw [waitGo] at h
      split at h
      · cases hp : poll_release pS pB count with
        | error e' => rw [hp] at h; dsimp only at h; cases h; omega
        | ok r =>
          rw [hp] at h
          dsimp only at h
          by_cases hs : r.status ≠ HerokuStatus.PENDING
          · rw [if_pos hs] at h
            cases h
          · rw [if_neg hs] at h
            have := ((ih (count + 1)).2.2) n e h
            omega
      · cases h

theorem waitGo_ne_outOfFuel (pS : Nat → Nat) (pB : Nat → JsonValue)
    (t w : Nat) (hw : 0 < w) :
    ∀ fuel count, t ≤ fuel + count →
      waitGo pS pB t w fuel count ≠ .outOfFuel := by
  intro fuel
  induction fuel with
  | zero =>
    intro count hfc
    have : t ≤ count * w := by
      calc t ≤ count := by omega
        _ ≤ count * w := Nat.le_mul_of_pos_right count hw
    rw [waitGo, if_neg (Nat.not_lt.mpr this)]
    simp
  | succ fuel ih =>
    intro count hfc
    rw [waitGo]
    split
    · cases hp : poll_release pS pB count with
      | error e => simp
      | ok r =>
        dsimp only
        by_cases hs : r.status ≠ HerokuStatus.PENDING
        · rw [if_pos hs]
          simp
        · rw [if_neg hs]
          exact ih (count + 1) (by omega)
    · simp

theorem dropWhile_ws_cons {c : Char} (hc : c.isWhitespace = false) (l : List Char) :
    List.dropWhile Char.isWhitespace (c :: l) = c :: l := by
  simp [List.dropWhile_cons, hc]

theorem pyStrip_clean (c d : Char) (l : List Char)
    (hc : c.isWhitespace = false) (hd : d.isWhitespace = false) :
    pyStrip (String.mk (c :: (l ++ [d]))) = String.mk (c :: (l ++ [d])) := by
  unfold pyStrip
  rw [show (String.mk (c :: (l ++ [d]))).data = c :: (l ++ [d]) from rfl]
  rw [dropWhile_ws_cons hc]
  rw [show (c :: (l ++ [d])).reverse = d :: (l.reverse ++ [c]) by simp]
  rw [dropWhile_ws_cons hd]
  rw [show (d :: (l.reverse ++ [c])).reverse = c :: (l ++ [d]) by simp]

theorem pyStrip_trailing_space (c d : Char) (l : List Char)
    (hc : c.isWhitespace = false) (hd : d.isWhitespace = false) :
    pyStrip (String.mk (c :: ((l ++ [d]) ++ [' ']))) = String.mk (c :: (l ++ [d])) := by
  unfold pyStrip
  rw [show (String.mk (c :: ((l ++ [d]) ++ [' ']))).data = c :: ((l ++ [d]) ++ [' '])
    from rfl]
  rw [dropWhile_ws_cons hc]
  rw [show (c :: ((l ++ [d]) ++ [' '])).reverse = ' ' :: (d :: (l.reverse ++ [c]))
    by simp]
  rw [show List.dropWhile Char.isWhitespace (' ' :: (d :: (l.reverse ++ [c])))
      = List.dropWhile Char.isWhitespace (d :: (l.reverse ++ [c]))
    by simp [List.dropWhile_cons]]
  rw [dropWhile_ws_cons hd]
  rw [show (d :: (l.reverse ++ [c])).reverse = c :: (l ++ [d]) by simp]

/-- C7: for every app, api_key, commit_hash and force flag, the constructed
push command targets `https://heroku:<api_key>@git.heroku.com/<app>.git`,
pushes `<commit_hash>:refs/heads/master`, and carries `--force` exactly when
the rollback flag is set. -/
theorem deploy_heroku_command_spec (commit_hash api_key app : String) (rollback : Bool) :
    deploy_heroku_command commit_hash api_key app rollback =
      "git push https://heroku:" ++ api_key ++ "@git.heroku.com/" ++ app ++ ".git "
        ++ commit_hash ++ ":refs/heads/master"
        ++ (if rollback then " --force" else "") := by
  cases rollback with
  | false =>
    calc deploy_heroku_command commit_hash api_key app false
        = pyStrip (String.mk ('g' ::
            ((("it push https://heroku:".data ++ api_key.data
              ++ "@git.heroku.com/".data ++ app.data ++ ".git ".data
              ++ commit_hash.data ++ ":refs/heads/maste".data) ++ ['r']) ++ [' ']))) := by
          unfold deploy_heroku_command
          exact congrArg pyStrip (string_eq_of_data (by
            simp only [data_append, List.append_assoc, List.cons_append,
              List.nil_append, List.append_nil]
            rfl))
      _ = String.mk ('g' ::
            (("it push https://heroku:".data ++ api_key.data
              ++ "@git.heroku.com/".data ++ app.data ++ ".git ".data
              ++ commit_hash.data ++ ":refs/heads/maste".data) ++ ['r'])) :=
          pyStrip_trailing_space 'g' 'r' _ (by decide) (by decide)
      _ = "git push https://heroku:" ++ api_key ++ "@git.heroku.com/" ++ app
            ++ ".git " ++ commit_hash ++ ":refs/heads/master"
            ++ (if false then " --force" else "") :=
          string_eq_of_data (by
            simp only [data_append, List.append_assoc, List.cons_append,
              List.nil_append, List.append_nil]
            rfl)
  | true =>
    calc deploy_heroku_command commit_hash api_key app true
        = pyStrip (String.mk ('g' ::
            (("it push https://heroku:".data ++ api_key.data
              ++ "@git.heroku.com/".data ++ app.data ++ ".git ".data
              ++ commit_hash.data ++ ":refs/heads/master --forc".data) ++ ['e']))) := by
          unfold deploy_heroku_command
          exact congrArg pyStrip (string_eq_of_data (by
            simp only [data_append, List.append_assoc, List.cons_append,
              List.nil_append, List.append_nil]
            rfl))
      _ = String.mk ('g' ::
            (("it push https://heroku:".data ++ api_key.data
              ++ "@git.heroku.com/".data ++ app.data ++ ".git ".data
              ++ commit_hash.data ++ ":refs/heads/master --forc".data) ++ ['e'])) :=
          pyStrip_clean 'g' 'e' _ (by decide) (by decide)
      _ = "git push https://heroku:" ++ api_key ++ "@git.heroku.com/" ++ app
            ++ ".git " ++ commit_hash ++ ":refs/heads/master"
            ++ (if true then " --force" else "") :=
          string_eq_of_data (by
            simp only [data_append, List.append_assoc, List.cons_append,
              List.nil_append, List.append_nil]
            rfl)

/-- C5: the release-listing call (a GET carrying no payload) accepts exactly
HTTP status 200 and 206 as success, returning the response body; any other
status makes the status assert raise (the spec's `ApiError`) instead of
returning a result. -/
theorem get_response_listing_statuses (status : Nat) (body : JsonValue) :
    get_response false status body =
      (if status = 200 ∨ status = 206 then .ok body
       else .error (.apiError status)) := by
  by_cases h1 : status = 200
  · subst h1
    rfl
  · by_cases h2 : status = 206
    · subst h2
      rfl
    · simp [get_response, get_status_codes, HTTPMethod.GET, HTTPMethod.POST, h1, h2,
        bind, Except.bind, pure, Except.pure]

/-- C6: `trigger_release_retry` posts a create-release body whose `slug`
field is the input release's slug id and whose `description` is exactly
`Retry of v{version}: {description}` built from the input release; the retry
branch of the dispatcher sends exactly that body. -/
theorem trigger_release_retry_payload (release : HerokuRelease)
    (app api_key commit : String) (env : Env) :
    pyGetItem (retryPayload release) "slug" = .ok (.str release.slug_id) ∧
    pyGetItem (retryPayload release) "description" =
      .ok (.str ("Retry of v" ++ toString release.version ++ ": "
        ++ release.description)) ∧
    (run_action app api_key commit env release .retryRelease).1.head? =
      some (.httpPostRelease (retryPayload release)) := by
  refine ⟨rfl, rfl, ?_⟩
  unfold run_action
  cases release_retry_result env.retryStatus env.retryBody with
  | error e => rfl
  | ok newRelease =>
    cases wait_for_release env.pollStatus env.pollBody 300 3 <;> rfl

/-- C8 counterexample: with an empty event payload input, intent
classification raises a JSON decode error; it does not succeed with any
intent value, in particular not with "unspecified" (no such value exists in
the code). -/
theorem get_deployment_type_empty_raises :
    get_deployment_type (some "") = .error .jsonDecodeError := rfl

/-- C8 (amended): when the event payload input is absent or empty, intent
classification fails — a missing file error when absent, a JSON decode error
when empty — rather than succeeding with an "unspecified" intent. -/
theorem get_deployment_type_empty_or_absent_fails :
    get_deployment_type none = .error .fileNotFound ∧
    get_deployment_type (some "") = .error .jsonDecodeError := ⟨rfl, rfl⟩

/-- C9: building a `HerokuRelease` from a raw release response and reading
its fields back yields exactly the response's `id`, `version`, `status` and
`description` values, with `slug_id` equal to the nested slug object's
`id`. -/
theorem release_from_response_round_trip (data slug : JsonValue)
    (i st desc sid : String) (ver : Int)
    (hid : pyGetItem data "id" = .ok (.str i))
    (hver : pyGetItem data "version" = .ok (.num ver))
    (hst : pyGetItem data "status" = .ok (.str st))
    (hdesc : pyGetItem data "description" = .ok (.str desc))
    (hslug : pyGetItem data "slug" = .ok slug)
    (hsid : pyGetItem slug "id" = .ok (.str sid)) :
    release_from_response data = .ok ⟨i, ver, st, desc, sid⟩ := by
  simp [release_from_response, hid, hver, hst, hdesc, hslug, hsid, asStr, asInt,
    bind, Except.bind, pure, Except.pure, Functor.map, Except.map]

theorem release_from_response_round_trip_witness :
    release_from_response (JsonValue.obj [("id", .str "rid"), ("version", .num 20),
      ("status", .str "succeeded"), ("description", .str "Deploy"),
      ("slug", .obj [("id", .str "sid")])]) =
      .ok ⟨"rid", 20, "succeeded", "Deploy", "sid"⟩ :=
  release_from_response_round_trip _ _ "rid" "succeeded" "Deploy" "sid" 20
    rfl rfl rfl rfl rfl rfl

/-- C10: when the (decoded) deployment payload object does not contain the
key "ghd", the intent is read from its "deployment_type" key; and a payload
that is itself a JSON-encoded string is decoded a second time before the
intent is extracted. -/
theorem intent_fallback_and_double_decode (payload : JsonValue) (s : String)
    (v : JsonValue) :
    (pyContains payload "ghd" = .ok false →
      intent_from_payload_obj payload = pyGetItem payload "deployment_type") ∧
    (json_loads s = .ok v →
      extract_intent (.str s) = intent_from_payload_obj v) := by
  constructor
  · intro h
    unfold intent_from_payload_obj
    rw [h]
    rfl
  · intro h
    show json_loads s >>= intent_from_payload_obj = _
    rw [h]
    rfl

theorem intent_fallback_and_double_decode_witness :
    intent_from_payload_obj (JsonValue.obj [("deployment_type", JsonValue.str "forward")]) =
      .ok (JsonValue.str "forward") ∧
    extract_intent (JsonValue.str "\x7b\"deployment_type\": \"forward\"\x7d") =
      .ok (JsonValue.str "forward") := by
  constructor
  · rw [(intent_fallback_and_double_decode
      (JsonValue.obj [("deployment_type", JsonValue.str "forward")])
      "" JsonValue.null).1 rfl]
    rfl
  · rw [(intent_fallback_and_double_decode JsonValue.null
      "\x7b\"deployment_type\": \"forward\"\x7d"
      (JsonValue.obj [("deployment_type", JsonValue.str "forward")])).2 rfl]
    rw [(intent_fallback_and_double_decode
      (JsonValue.obj [("deployment_type", JsonValue.str "forward")])
      "" JsonValue.null).1 rfl]
    rfl

/-- C4: for every timeout and positive polling interval, the release watcher
returns as soon as a polled status is not "pending" (after `j + 1` polls when
poll `j` is the first non-pending one), and raises `TimeoutError` while the
status stays "pending" once the number of attempts times the interval
reaches the timeout — it then timed out after exactly
`⌈timeout / interval⌉` attempts, a number `n` with `n * interval ≥ timeout`.
With timeout 1 and interval 1 this is exactly one poll attempt. -/
theorem wait_for_release_spec (pS : Nat → Nat) (pB : Nat → JsonValue)
    (timeout wait_time : Nat) (hw : 0 < wait_time) :
    ((∀ k, ∃ r, poll_release pS pB k = .ok r ∧
        r.status = HerokuStatus.PENDING) →
      wait_for_release pS pB timeout wait_time =
        .timedOut ((timeout + wait_time - 1) / wait_time) ∧
      timeout ≤ ((timeout + wait_time - 1) / wait_time) * wait_time) ∧
    (∀ j r, j * wait_time < timeout → poll_release pS pB j = .ok r →
      r.status ≠ HerokuStatus.PENDING →
      (∀ k, k < j → ∃ r', poll_release pS pB k = .ok r' ∧
        r'.status = HerokuStatus.PENDING) →
      wait_for_release pS pB timeout wait_time = .finished (j + 1)) := by
  constructor
  · intro hpend
    refine ⟨?_, (ceil_div_le_iff timeout wait_time _ hw).mp le_rfl⟩
    unfold wait_for_release
    rw [if_neg (by omega)]
    exact waitGo_all_pending pS pB timeout wait_time hw hpend (timeout + 1) 0
      (Nat.zero_le _) (by omega)
  · intro j r hj hr hst hbefore
    unfold wait_for_release
    rw [if_neg (by omega)]
    exact waitGo_first_non_pending pS pB timeout wait_time hw j r hj hr hst
      hbefore (timeout + 1) 0 (Nat.zero_le _) (by omega)

/-- A release response body whose status is "pending". -/
def releaseBody (st : String) (ver : Int) : JsonValue :=
  .obj [("id", .str "rid"), ("version", .num ver), ("status", .str st),
    ("description", .str "Deploy"), ("slug", .obj [("id", .str "sid")])]

theorem wait_for_release_spec_witness :
    wait_for_release (fun _ => 200) (fun _ => releaseBody "pending" 20) 1 1 =
      .timedOut 1 := by
  have h := (wait_for_release_spec (fun _ => 200)
    (fun _ => releaseBody "pending" 20) 1 1 (by decide)).1
    (fun k => ⟨⟨"rid", 20, "pending", "Deploy", "sid"⟩, rfl, rfl⟩)
  exact h.1

/-- C3: when app, api_key and commit hash are all non-empty the run can
never fail with the precondition error (whatever the event payload and the
environment respond); when any of them is empty or missing, the run fails
with the precondition error at once, having performed no outbound call. -/
theorem main_precondition_check (app api_key commit : String)
    (event : Option String) (env : Env) :
    ((app ≠ "" ∧ api_key ≠ "" ∧ commit ≠ "") →
      (main app api_key commit event env).2 ≠ .error .preconditionError) ∧
    ((app = "" ∨ api_key = "" ∨ commit = "") →
      main app api_key commit event env = ([], .error .preconditionError)) := by
  constructor
  · rintro ⟨h1, h2, h3⟩
    unfold main
    rw [if_neg (by simp [h1, h2, h3])]
    cases get_deployment_type event with
    | error e => simp
    | ok dt =>
      cases get_latest_heroku_release env.releasesStatus env.releasesBody with
      | error e => simp
      | ok latest =>
        cases fetch_slug_commit env.slugStatus env.slugBody with
        | error e => simp
        | ok sc =>
          dsimp only
          rcases run_action app api_key commit env latest
              (choose_action sc commit dt) with ⟨actEffs, actRes⟩
          dsimp only
          cases actRes with
          | error e => simp [finish_run]
          | ok u =>
            unfold finish_run
            dsimp only
            cases hfin : get_latest_heroku_release env.finalStatus env.finalBody with
            | error e => simp
            | ok fr =>
              dsimp only
              by_cases hs : fr.status = HerokuStatus.SUCCEEDED <;> simp [hs]
  · intro h
    unfold main
    rw [if_pos h]

theorem main_precondition_check_witness :
    (main "app" "key" "abc1234" none
      ⟨200, .null, 200, .null, 201, .null, fun _ => 200, fun _ => .null, true,
        200, .null⟩).2 ≠ .error .preconditionError ∧
    main "" "key" "abc1234" none
      ⟨200, .null, 200, .null, 201, .null, fun _ => 200, fun _ => .null, true,
        200, .null⟩ = ([], .error .preconditionError) :=
  ⟨(main_precondition_check "app" "key" "abc1234" none _).1
      ⟨by decide, by decide, by decide⟩,
   (main_precondition_check "" "key" "abc1234" none _).2 (Or.inl rfl)⟩

theorem run_action_rollback_effects (app api_key commit : String) (env : Env)
    (latest : HerokuRelease) :
    (run_action app api_key commit env latest .rollbackPush).1 =
      [Effect.runCmd (deploy_heroku_command commit api_key app true)] := rfl

theorem run_action_forward_effects (app api_key commit : String) (env : Env)
    (latest : HerokuRelease) :
    (run_action app api_key commit env latest .forwardPush).1 =
      [Effect.runCmd (deploy_heroku_command commit api_key app false)] := rfl

theorem wait_for_release_300_3_pos (pS : Nat → Nat) (pB : Nat → JsonValue) :
    (∀ n, wait_for_release pS pB 300 3 = .finished n → 1 ≤ n) ∧
    (∀ n, wait_for_release pS pB 300 3 = .timedOut n → 1 ≤ n) ∧
    (∀ n e, wait_for_release pS pB 300 3 = .failed n e → 1 ≤ n) ∧
    wait_for_release pS pB 300 3 ≠ .outOfFuel := by
  have hlb := waitGo_polls_lower_bound pS pB 300 3
  have hnf := waitGo_ne_outOfFuel pS pB 300 3 (by norm_num)
  unfold wait_for_release
  rw [if_neg (by norm_num)]
  rw [waitGo]
  rw [if_pos (by norm_num : (0 : Nat) * 3 < 300)]
  cases hp : poll_release pS pB 0 with
  | error e =>
    dsimp only
    refine ⟨?_, ?_, ?_, ?_⟩
    · intro n h
      simp at h
    · intro n h
      simp at h
    · intro n e' h
      simp only [WaitOutcome.failed.injEq] at h
      omega
    · simp
  | ok r =>
    dsimp only
    by_cases hs : r.status ≠ HerokuStatus.PENDING
    · rw [if_pos hs]
      refine ⟨?_, ?_, ?_, ?_⟩
      · intro n h
        simp only [WaitOutcome.finished.injEq] at h
        omega
      · intro n h
        simp at h
      · intro n e' h
        simp at h
      · simp
    · rw [if_neg hs]
      refine ⟨?_, ?_, ?_, ?_⟩
      · intro n h
        have := (hlb 300 (0 + 1)).1 n h
        omega
      · intro n h
        have := (hlb 300 (0 + 1)).2.1 n h
        omega
      · intro n e' h
        have := (hlb 300 (0 + 1)).2.2 n e' h
        omega
      · exact hnf 300 (0 + 1) (by norm_num)

theorem run_action_retry_effects (app api_key commit : String) (env : Env)
    (latest : HerokuRelease) :
    (∀ x ∈ (run_action app api_key commit env latest .retryRelease).1,
      x = Effect.httpPostRelease (retryPayload latest) ∨
        ∃ v, x = Effect.httpGetRelease v) ∧
    Effect.httpPostRelease (retryPayload latest) ∈
      (run_action app api_key commit env latest .retryRelease).1 ∧
    (∀ nr, release_retry_result env.retryStatus env.retryBody = .ok nr →
      Effect.httpGetRelease nr.version ∈
        (run_action app api_key commit env latest .retryRelease).1) := by
  unfold run_action
  cases hrr : release_retry_result env.retryStatus env.retryBody with
  | error e =>
    dsimp only
    refine ⟨?_, ?_, ?_⟩
    · intro x hx
      simp only [List.mem_singleton] at hx
      exact Or.inl hx
    · simp
    · intro nr hnr
      simp at hnr
  | ok nr0 =>
    dsimp only
    cases hwo : wait_for_release env.pollStatus env.pollBody 300 3 with
    | finished n =>
      dsimp only
      refine ⟨?_, ?_, ?_⟩
      · intro x hx
        rcases List.mem_cons.mp hx with h | h
        · exact Or.inl h
        · exact Or.inr ⟨nr0.version, List.eq_of_mem_replicate h⟩
      · exact List.mem_cons_self _ _
      · intro nr hnr
        have hnr0 : nr0 = nr := by
          simpa using hnr
        have hn : 1 ≤ n :=
          (wait_for_release_300_3_pos env.pollStatus env.pollBody).1 n hwo
        apply List.mem_cons_of_mem
        rw [List.mem_replicate, hnr0]
        exact ⟨by omega, rfl⟩
    | timedOut n =>
      dsimp only
      refine ⟨?_, ?_, ?_⟩
      · intro x hx
        rcases List.mem_cons.mp hx with h | h
        · exact Or.inl h
        · exact Or.inr ⟨nr0.version, List.eq_of_mem_replicate h⟩
      · exact List.mem_cons_self _ _
      · intro nr hnr
        have hnr0 : nr0 = nr := by
          simpa using hnr
        have hn : 1 ≤ n :=
          (wait_for_release_300_3_pos env.pollStatus env.pollBody).2.1 n hwo
        apply List.mem_cons_of_mem
        rw [List.mem_replicate, hnr0]
        exact ⟨by omega, rfl⟩
    | failed n e =>
      dsimp only
      refine ⟨?_, ?_, ?_⟩
      · intro x hx
        rcases List.mem_cons.mp hx with h | h
        · exact Or.inl h
        · exact Or.inr ⟨nr0.version, List.eq_of_mem_replicate h⟩
      · exact List.mem_cons_self _ _
      · intro nr hnr
        have hnr0 : nr0 = nr := by
          simpa using hnr
        have hn : 1 ≤ n :=
          (wait_for_release_300_3_pos env.pollStatus env.pollBody).2.2.1 n e hwo
        apply List.mem_cons_of_mem
        rw [List.mem_replicate, hnr0]
        exact ⟨by omega, rfl⟩
    | outOfFuel =>
      exact absurd hwo
        (wait_for_release_300_3_pos env.pollStatus env.pollBody).2.2.2

theorem main_unfolded (app api_key commit : String) (event : Option String)
    (env : Env) (dt slug_commit : JsonValue) (latest : HerokuRelease)
    (happ : app ≠ "") (hkey : api_key ≠ "") (hcommit : commit ≠ "")
    (hdt : get_deployment_type event = .ok dt)
    (hlatest : get_latest_heroku_release env.releasesStatus env.releasesBody =
      .ok latest)
    (hslug : fetch_slug_commit env.slugStatus env.slugBody = .ok slug_commit) :
    main app api_key commit event env =
      finish_run [.httpGetReleases, .httpGetSlug latest.slug_id]
        (run_action app api_key commit env latest
          (choose_action slug_commit commit dt)).1
        (run_action app api_key commit env latest
          (choose_action slug_commit commit dt)).2 env := by
  unfold main
  rw [if_neg (by simp [happ, hkey, hcommit]), hdt, hlatest, hslug]

/-- C1: on every dispatch run (required inputs present, intent classified,
state fetched), the action follows the precedence of the `if`/`elif`/`else`
chain: when the slug's commit equals the target commit and the intent is
`redeploy`, a retry of the latest release is posted, its completion polled,
and no push command is run; otherwise intent `rollback` runs a forced push
and posts no release; in every other case — including an equal commit with an
intent other than `redeploy` — a normal, non-forced push runs and no release
is posted. -/
theorem main_dispatch_precedence (app api_key commit : String)
    (event : Option String) (env : Env) (dt slug_commit : JsonValue)
    (latest : HerokuRelease)
    (happ : app ≠ "") (hkey : api_key ≠ "") (hcommit : commit ≠ "")
    (hdt : get_deployment_type event = .ok dt)
    (hlatest : get_latest_heroku_release env.releasesStatus env.releasesBody =
      .ok latest)
    (hslug : fetch_slug_commit env.slugStatus env.slugBody = .ok slug_commit) :
    (slug_commit = .str commit ∧ dt = .str DeploymentType.REDEPLOY →
      Effect.httpPostRelease (retryPayload latest) ∈
        (main app api_key commit event env).1 ∧
      (∀ c, Effect.runCmd c ∉ (main app api_key commit event env).1) ∧
      (∀ nr, release_retry_result env.retryStatus env.retryBody = .ok nr →
        Effect.httpGetRelease nr.version ∈ (main app api_key commit event env).1)) ∧
    (¬(slug_commit = .str commit ∧ dt = .str DeploymentType.REDEPLOY) →
      dt = .str DeploymentType.ROLLBACK →
      Effect.runCmd (deploy_heroku_command commit api_key app true) ∈
        (main app api_key commit event env).1 ∧
      (∀ p, Effect.httpPostRelease p ∉ (main app api_key commit event env).1)) ∧
    (¬(slug_commit = .str commit ∧ dt = .str DeploymentType.REDEPLOY) →
      dt ≠ .str DeploymentType.ROLLBACK →
      Effect.runCmd (deploy_heroku_command commit api_key app false) ∈
        (main app api_key commit event env).1 ∧
      (∀ p, Effect.httpPostRelease p ∉ (main app api_key commit event env).1)) := by
  have hmain := main_unfolded app api_key commit event env dt slug_commit latest
    happ hkey hcommit hdt hlatest hslug
  refine ⟨?_, ?_, ?_⟩
  · rintro ⟨hsc, hrd⟩
    rw [choose_action_retry hsc hrd] at hmain
    obtain ⟨tail, htr, htail⟩ := finish_run_trace
      [.httpGetReleases, .httpGetSlug latest.slug_id]
      (run_action app api_key commit env latest .retryRelease).1
      (run_action app api_key commit env latest .retryRelease).2 env
    have heff := run_action_retry_effects app api_key commit env latest
    have htrace : (main app api_key commit event env).1 =
        [Effect.httpGetReleases, Effect.httpGetSlug latest.slug_id] ++
          (run_action app api_key commit env latest .retryRelease).1 ++ tail := by
      rw [hmain]
      exact htr
    refine ⟨?_, ?_, ?_⟩
    · rw [htrace]
      simp only [List.mem_append]
      exact Or.inl (Or.inr heff.2.1)
    · intro c hc
      rw [htrace] at hc
      rcases List.mem_append.mp hc with h | h
      · rcases List.mem_append.mp h with h' | h'
        · simp at h'
        · rcases heff.1 _ h' with h'' | ⟨v, h''⟩ <;> simp at h''
      · have := htail _ h
        simp at this
    · intro nr hnr
      rw [htrace]
      simp only [List.mem_append]
      exact Or.inl (Or.inr (heff.2.2 nr hnr))
  · intro hn hrb
    rw [choose_action_rollback hrb] at hmain
    obtain ⟨tail, htr, htail⟩ := finish_run_trace
      [.httpGetReleases, .httpGetSlug latest.slug_id]
      (run_action app api_key commit env latest .rollbackPush).1
      (run_action app api_key commit env latest .rollbackPush).2 env
    have htrace : (main app api_key commit event env).1 =
        [Effect.httpGetReleases, Effect.httpGetSlug latest.slug_id] ++
          [Effect.runCmd (deploy_heroku_command commit api_key app true)] ++ tail := by
      rw [hmain]
      rw [run_action_rollback_effects] at htr
      exact htr
    constructor
    · rw [htrace]
      simp
    · intro p hp
      rw [htrace] at hp
      rcases List.mem_append.mp hp with h | h
      · rcases List.mem_append.mp h with h' | h' <;> simp at h'
      · have := htail _ h
        simp at this
  · intro hn hnrb
    rw [choose_action_forward hn hnrb] at hmain
    obtain ⟨tail, htr, htail⟩ := finish_run_trace
      [.httpGetReleases, .httpGetSlug latest.slug_id]
      (run_action app api_key commit env latest .forwardPush).1
      (run_action app api_key commit env latest .forwardPush).2 env
    have htrace : (main app api_key commit event env).1 =
        [Effect.httpGetReleases, Effect.httpGetSlug latest.slug_id] ++
          [Effect.runCmd (deploy_heroku_command commit api_key app false)] ++ tail := by
      rw [hmain]
      rw [run_action_forward_effects] at htr
      exact htr
    constructor
    · rw [htrace]
      simp
    · intro p hp
      rw [htrace] at hp
      rcases List.mem_append.mp hp with h | h
      · rcases List.mem_append.mp h with h' | h' <;> simp at h'
      · have := htail _ h
        simp at this

/-- Event file content declaring the given deployment intent via the `ghd`
payload shape. -/
def eventRedeploy : Option String :=
  some "\x7b\"deployment\": \x7b\"payload\": \x7b\"ghd\": \x7b\"type\": \"redeploy\"\x7d\x7d\x7d\x7d"

def eventForward : Option String :=
  some "\x7b\"deployment\": \x7b\"payload\": \x7b\"ghd\": \x7b\"type\": \"forward\"\x7d\x7d\x7d\x7d"

/-- An environment in which every call succeeds: latest release v20 with slug
commit `abc1234`, retry creating release v21, polls succeeding, final listing
headed by a succeeded release of the given version. -/
def envRetry : Env :=
  ⟨200, .arr [releaseBody "succeeded" 20], 200, .obj [("commit", .str "abc1234")],
   201, releaseBody "pending" 21, fun _ => 200, fun _ => releaseBody "succeeded" 21,
   true, 200, .arr [releaseBody "succeeded" 21]⟩

def envForward : Env :=
  ⟨200, .arr [releaseBody "succeeded" 20], 200, .obj [("commit", .str "abc1234")],
   201, releaseBody "pending" 21, fun _ => 200, fun _ => releaseBody "succeeded" 21,
   true, 200, .arr [releaseBody "succeeded" 22]⟩

theorem main_dispatch_precedence_witness :
    Effect.httpPostRelease (retryPayload ⟨"rid", 20, "succeeded", "Deploy", "sid"⟩)
        ∈ (main "app" "key" "abc1234" eventRedeploy envRetry).1 ∧
    Effect.httpGetRelease 21 ∈ (main "app" "key" "abc1234" eventRedeploy envRetry).1 := by
  have h := (main_dispatch_precedence "app" "key" "abc1234" eventRedeploy envRetry
    (.str "redeploy") (.str "abc1234") ⟨"rid", 20, "succeeded", "Deploy", "sid"⟩
    (by decide) (by decide) (by decide) rfl rfl rfl).1 ⟨rfl, rfl⟩
  exact ⟨h.1, h.2.2 ⟨"rid", 21, "pending", "Deploy", "sid"⟩ rfl⟩

/-- C2: whenever the dispatched action completes without error, `main`
re-fetches the latest release afterwards (its last outbound call is the
releases listing) and fails with `DeploymentFailed` when that release's
status is not "succeeded"; when it is "succeeded", the run's output is that
release's version. -/
theorem main_final_release_gate (app api_key commit : String)
    (event : Option String) (env : Env) (dt slug_commit : JsonValue)
    (latest final_release : HerokuRelease)
    (happ : app ≠ "") (hkey : api_key ≠ "") (hcommit : commit ≠ "")
    (hdt : get_deployment_type event = .ok dt)
    (hlatest : get_latest_heroku_release env.releasesStatus env.releasesBody =
      .ok latest)
    (hslug : fetch_slug_commit env.slugStatus env.slugBody = .ok slug_commit)
    (hact : (run_action app api_key commit env latest
      (choose_action slug_commit commit dt)).2 = .ok ())
    (hfinal : get_latest_heroku_release env.finalStatus env.finalBody =
      .ok final_release) :
    ((main app api_key commit event env).1).getLast? =
      some Effect.httpGetReleases ∧
    (final_release.status ≠ HerokuStatus.SUCCEEDED →
      (main app api_key commit event env).2 = .error .deploymentFailed) ∧
    (final_release.status = HerokuStatus.SUCCEEDED →
      (main app api_key commit event env).2 = .ok final_release.version) := by
  have hmain := main_unfolded app api_key commit event env dt slug_commit latest
    happ hkey hcommit hdt hlatest hslug
  rw [hact] at hmain
  unfold finish_run at hmain
  rw [hfinal] at hmain
  dsimp only at hmain
  refine ⟨?_, ?_, ?_⟩
  · rw [hmain]
    exact List.getLast?_concat _
  · intro hs
    rw [hmain]
    dsimp only
    rw [if_pos hs]
  · intro hs
    rw [hmain]
    dsimp only
    rw [if_neg (by simp [hs])]

theorem main_final_release_gate_witness :
    (main "app" "key" "abc1234" eventForward envForward).2 = .ok 22 := by
  have h := main_final_release_gate "app" "key" "abc1234" eventForward envForward
    (.str "forward") (.str "abc1234") ⟨"rid", 20, "succeeded", "Deploy", "sid"⟩
    ⟨"rid", 22, "succeeded", "Deploy", "sid"⟩ (by decide) (by decide) (by decide)
    rfl rfl rfl rfl rfl
  exact h.2.2 rfl

end DeployHeroku
